import Mathlib

/-!
Shallow embedding of the `datafun-03-analytics` ETVL (Extract-Transform-
Verify-Load) pipelines.

Each Python step function is translated into a Lean definition:

* Python floats are idealised as exact numbers: extracted scores are `ℚ`
  and derived statistics are `ℝ` (the square root in the standard
  deviation is irrational in general).
* Fallible steps (`raise`) return `Except PipeErr`.
* Python dicts are association lists `List (String × _)`; a first-match
  `List.lookup` models `dict[k]`/`dict.get(k)` and an in-place update
  models `counts[k] = counts.get(k, 0) + 1` (insertion order preserved).
* File access: an extractor's input is `Option content`, where `none`
  models a path for which `Path.exists()` is false, and `some c` a file
  whose (already decoded) content is `c`.
-/

namespace Datafun

/-- Typed pipeline errors.  The Python code raises builtin exceptions;
the constructors follow the error kinds they realise:
`FileNotFoundError` ↦ `resourceNotFound`, `KeyError`/`TypeError` during
extraction ↦ `schemaMismatch`, `ValueError` on an empty transform input ↦
`emptyInput`, `KeyError` in a verifier ↦ `incompleteSummary` (payload:
the missing keys, sorted), `ValueError` in a verifier ↦ `invalidValue`,
`ValueError` on a bad caller argument ↦ `invalidArgument`. -/
inductive PipeErr where
  | resourceNotFound : String → PipeErr
  | schemaMismatch : String → PipeErr
  | emptyInput : String → PipeErr
  | incompleteSummary : List String → PipeErr
  | invalidValue : String → PipeErr
  | invalidArgument : String → PipeErr
deriving DecidableEq

/-- Dynamic (JSON-like) runtime values: the loosely-typed data that
`json.load` and `openpyxl` cell reads produce. -/
inductive JVal where
  | null : JVal
  | bool : Bool → JVal
  | num : ℚ → JVal
  | str : String → JVal
  | arr : List JVal → JVal
  | obj : List (String × JVal) → JVal

/-- A JSON object element of the `people` list: a Python dict. -/
abbrev Person := List (String × JVal)

/-! ### CSV pipeline (`case_csv_pipeline.py`) -/

/-- A parsed CSV file as `csv.DictReader` sees it: the header row and,
for each data row, the cells keyed by column name. -/
structure CsvFile where
  header : List String
  rows : List (List (String × String))

/-- Drop leading and trailing whitespace from a character list. -/
def stripChars (cs : List Char) : List Char :=
  ((cs.dropWhile Char.isWhitespace).reverse.dropWhile Char.isWhitespace).reverse

/-- Python `str.strip()` (whitespace at both ends removed).  Defined on
the character list so it evaluates by kernel reduction. -/
def pyStrip (s : String) : String := String.mk (stripChars s.data)

/-- Value of a digit string read left to right (caller checks digits). -/
def digitsVal (cs : List Char) : ℕ :=
  cs.foldl (fun acc c => 10 * acc + (c.toNat - 48)) 0

/-- Split a character list at every occurrence of `sep` (the pieces do
not contain `sep`; n separators give n+1 pieces). -/
def splitOnChar (sep : Char) : List Char → List (List Char)
  | [] => [[]]
  | c :: rest =>
    match splitOnChar sep rest with
    | [] => [[c]]
    | g :: gs => if c = sep then [] :: g :: gs else (c :: g) :: gs

/-- Python `float(s)` on the fixed-point decimal forms that occur in the
data: optional sign, then digits with at most one decimal point and at
least one digit (`"7.5"`, `"5."`, `".5"`, `"12"`).  Exponent, infinity
and nan forms are not modelled; on them and on any other malformed text
the parser returns `none`, exactly where `float` raises `ValueError`. -/
def parseUnsigned (cs : List Char) : Option ℚ :=
  match splitOnChar '.' cs with
  | [ip] =>
    if !ip.isEmpty && ip.all Char.isDigit then some ((digitsVal ip : ℚ))
    else none
  | [ip, fp] =>
    if ip.isEmpty && fp.isEmpty then none
    else if ip.all Char.isDigit && fp.all Char.isDigit then
      some ((digitsVal ip : ℚ) + (digitsVal fp : ℚ) / (10 : ℚ) ^ fp.length)
    else none
  | _ => none

/-- `float(s)` with the optional leading sign handled. -/
def parseFloat (s : String) : Option ℚ :=
  match s.data with
  | [] => none
  | '-' :: body => (parseUnsigned body).map (fun q => -q)
  | '+' :: body => parseUnsigned body
  | _ => parseUnsigned s.data

/-- `extract_csv_scores`: checks the file exists, checks the column is
among the field names, then per row takes the cell under `column_name`
(missing cell ↦ `""`), strips it, skips blanks, and keeps the values
that parse as numbers (malformed cells are silently dropped). -/
def extract_csv_scores (file : Option CsvFile) (column_name : String) :
    Except PipeErr (List ℚ) :=
  match file with
  | none => .error (.resourceNotFound "Missing input file")
  | some f =>
    if column_name ∈ f.header then
      .ok (f.rows.filterMap (fun row =>
        let raw := pyStrip ((row.lookup column_name).getD "")
        if raw = "" then none else parseFloat raw))
    else .error (.schemaMismatch "CSV missing expected column")

/-- `transform_scores_to_stats`: on an empty list raises
`ValueError("No numeric values found for analysis.")`; otherwise returns
the dict `{count, min, max, mean, stdev}` where `mean` is the exact
arithmetic mean (`statistics.mean`) and `stdev` the sample standard
deviation (`statistics.stdev`), defined as `0.0` for one element. -/
noncomputable def transform_scores_to_stats (scores : List ℚ) :
    Except PipeErr (List (String × ℝ)) :=
  match scores with
  | [] => .error (.emptyInput "No numeric values found for analysis.")
  | h :: t =>
    .ok [("count", ((h :: t).length : ℝ)),
         ("min", ((t.foldl min h : ℚ) : ℝ)),
         ("max", ((t.foldl max h : ℚ) : ℝ)),
         ("mean", (((h :: t).sum / (h :: t).length : ℚ) : ℝ)),
         ("stdev",
           if t = [] then 0
           else Real.sqrt
             ((((h :: t).map
                   (fun x => (x - (h :: t).sum / (h :: t).length) ^ 2)).sum /
                 ((h :: t).length - 1) : ℚ) : ℝ))]

/-- Required statistics keys, listed in lexicographic order so that the
filter below reproduces Python's `sorted(missing)`. -/
def statsRequired : List String := ["count", "max", "mean", "min", "stdev"]

/-- `verify_stats`: first structural completeness (all of
`{count, min, max, mean, stdev}` present, else `KeyError` with the
sorted missing keys), then `count > 0`, then `min ≤ max`.  Polymorphic
in the numeric type exactly as the Python code is duck-typed. -/
def verify_stats {α : Type} [LinearOrderedField α]
    (stats : List (String × α)) : Except PipeErr Unit :=
  match statsRequired.filter (fun k => (stats.lookup k).isNone) with
  | [] =>
    if (stats.lookup "count").getD 0 ≤ 0 then
      .error (.invalidValue "Count must be positive.")
    else if (stats.lookup "max").getD 0 < (stats.lookup "min").getD 0 then
      .error (.invalidValue "Min cannot be greater than max.")
    else .ok ()
  | missing => .error (.incompleteSummary missing)

/-- Round-half-even to an integer, the rounding of Python's float
formatting (idealised to exact arithmetic). -/
def rhe {α : Type} [LinearOrderedField α] [FloorRing α] (x : α) : ℤ :=
  if x - ⌊x⌋ < 1 / 2 then ⌊x⌋
  else if 1 / 2 < x - ⌊x⌋ then ⌊x⌋ + 1
  else if ⌊x⌋ % 2 = 0 then ⌊x⌋ else ⌊x⌋ + 1

/-- The value printed by `f"{x:.2f}"`: `x` rounded (half-even) to two
decimal places. -/
def round2 {α : Type} [LinearOrderedField α] [FloorRing α] (x : α) : α :=
  (rhe (100 * x) : α) / 100

/-- Python `int(x)`: truncation toward zero. -/
def pyInt {α : Type} [LinearOrderedField α] [FloorRing α] (x : α) : ℤ :=
  if 0 ≤ x then ⌊x⌋ else ⌈x⌉

/-- Render a number of hundredths as a fixed two-decimal string, as
`f"{x:.2f}"` lays out the digits. -/
def fmt2of (v : ℤ) : String :=
  let sign := if v < 0 then "-" else ""
  let a := v.natAbs
  let fp := a % 100
  sign ++ toString (a / 100) ++ "." ++
    (if fp < 10 then "0" ++ toString fp else toString fp)

/-- `f"{x:.2f}"` on an (idealised) float. -/
noncomputable def fmt2 (x : ℝ) : String := fmt2of (rhe (100 * x))

/-- `load_stats_report`: the lines written to the output file. -/
noncomputable def load_stats_report (stats : List (String × ℝ)) :
    List String :=
  ["CSV Ladder Score Statistics",
   "Count: " ++ toString (pyInt ((stats.lookup "count").getD 0)),
   "Minimum: " ++ fmt2 ((stats.lookup "min").getD 0),
   "Maximum: " ++ fmt2 ((stats.lookup "max").getD 0),
   "Mean: " ++ fmt2 ((stats.lookup "mean").getD 0),
   "Standard Deviation: " ++ fmt2 ((stats.lookup "stdev").getD 0)]

/-- The statistics dict produced for `scores` (meaningful when
`scores ≠ []`, the only case in which the transformer succeeds). -/
noncomputable def statsOf (scores : List ℚ) : List (String × ℝ) :=
  (transform_scores_to_stats scores).toOption.getD []

/-- Field access `statsOf scores [k]`. -/
noncomputable def statsField (scores : List ℚ) (k : String) : ℝ :=
  ((statsOf scores).lookup k).getD 0

/-! ### JSON pipeline (`case_json_pipeline.py`) -/

/-- `extract_people_list`: checks the file exists, requires the
top-level JSON value to be an object, defensively reads `list_key`
(absent ↦ `[]`), requires it to be a list, and keeps only the elements
that are themselves objects (others silently skipped). -/
def extract_people_list (file : Option JVal) (list_key : String) :
    Except PipeErr (List Person) :=
  match file with
  | none => .error (.resourceNotFound "Missing input file")
  | some data =>
    match data with
    | .obj fields =>
      match (fields.lookup list_key).getD (.arr []) with
      | .arr items =>
        .ok (items.filterMap (fun item =>
          match item with
          | .obj f => some f
          | _ => none))
      | _ => .error (.schemaMismatch "Expected a list.")
    | _ =>
      .error (.schemaMismatch "Expected JSON top-level object to be a dictionary.")

/-- The group key a record is counted under: `person.get(craft_key,
"Unknown")`, with non-string or blank-after-strip values replaced by the
literal `"Unknown"` (a kept value is the original, unstripped string). -/
def classifyCraft (craft_key : String) (person : Person) : String :=
  match (person.lookup craft_key).getD (.str "Unknown") with
  | .str s => if pyStrip s = "" then "Unknown" else s
  | _ => "Unknown"

/-- `counts[k] = counts.get(k, 0) + 1` on a Python dict: bump the
existing entry in place, or append a fresh entry with count 1. -/
def dictInsert : List (String × ℤ) → String → List (String × ℤ)
  | [], k => [(k, 1)]
  | (k', v) :: rest, k =>
    if k' = k then (k', v + 1) :: rest else (k', v) :: dictInsert rest k

/-- `transform_count_by_craft`: fold over the records, counting each
under its classified group key. -/
def transform_count_by_craft (people_list : List Person)
    (craft_key : String) : List (String × ℤ) :=
  people_list.foldl
    (fun counts person => dictInsert counts (classifyCraft craft_key person)) []

/-- `verify_counts`: for each `(craft, count)` item in order, reject a
craft name that strips to empty, then a negative count. -/
def verify_counts : List (String × ℤ) → Except PipeErr Unit
  | [] => .ok ()
  | (craft, count) :: rest =>
    if pyStrip craft = "" then
      .error (.invalidValue ("Invalid craft name: " ++ craft))
    else if count < 0 then
      .error (.invalidValue ("Invalid count for craft: " ++ craft))
    else verify_counts rest

/-- `counts[k]` (0 when absent; the loader only looks up present keys). -/
def valueOf (counts : List (String × ℤ)) (k : String) : ℤ :=
  (counts.lookup k).getD 0

/-- Total of all counts in the dict. -/
def sumVals (counts : List (String × ℤ)) : ℤ :=
  (counts.map Prod.snd).sum

/-- Lexicographic "less or equal" on character lists, comparing code
points — Python's `str <= str`. -/
def lexLe : List Char → List Char → Bool
  | [], _ => true
  | _ :: _, [] => false
  | a :: as, b :: bs =>
    if a.toNat < b.toNat then true
    else if b.toNat < a.toNat then false
    else lexLe as bs

/-- Python string comparison (code-point lexicographic), the order
`sorted` uses. -/
def strLe (a b : String) : Bool := lexLe a.data b.data

/-- `strLe` as a relation, for the sorting lemmas. -/
def strLeP (a b : String) : Prop := strLe a b = true

instance instDecStrLeP : DecidableRel strLeP :=
  fun a b => instDecidableEqBool (strLe a b) true

/-- `load_counts_report`: the title line, then one `"<group>: <count>"`
line per group, groups in `sorted(counts)` order (lexicographic on the
key strings). -/
def load_counts_report (counts : List (String × ℤ)) : List String :=
  "Astronauts by spacecraft:" ::
    ((counts.map Prod.fst).insertionSort strLeP).map
      (fun craft => craft ++ ": " ++ toString (valueOf counts craft))

/-- A record whose `craft_key` field is missing, not a string, or blank
after stripping (the spec's "missing/blank/non-string" records). -/
def badCraftKey (craft_key : String) (p : Person) : Bool :=
  match p.lookup craft_key with
  | none => true
  | some (.str s) => pyStrip s == ""
  | some _ => true

/-! ### XLSX pipeline (`case_xlsx_pipeline.py`) -/

/-- A workbook's active sheet, as the column access `sheet[letter]`
sees it: the list of cell values in a lettered column. -/
abbrev XlsxSheet := String → List JVal

/-- `extract_xlsx_column_strings`: checks the file exists, then keeps
the cell values in the column that are strings and non-blank after
stripping (the original value is kept, unstripped). -/
def extract_xlsx_column_strings (file : Option XlsxSheet)
    (column_letter : String) : Except PipeErr (List String) :=
  match file with
  | none => .error (.resourceNotFound "Missing input file")
  | some sheet =>
    .ok ((sheet column_letter).filterMap (fun v =>
      match v with
      | .str s => if pyStrip s = "" then none else some s
      | _ => none))

/-- Python `str.lower()` (ASCII case folding). -/
def pyLower (s : String) : String := String.mk (s.data.map Char.toLower)

/-- Python `text.count(target)` for a non-empty `target`: non-overlapping
occurrences, scanning left to right.  Structural recursion on a fuel
argument (one unit per character examined) so that the definition
evaluates by kernel reduction; `countOccs` below supplies enough fuel. -/
def countOccsAux (t : List Char) : ℕ → List Char → ℕ
  | 0, _ => 0
  | _ + 1, [] => 0
  | fuel + 1, c :: rest =>
    if t.isPrefixOf (c :: rest) && !t.isEmpty then
      1 + countOccsAux t fuel ((c :: rest).drop t.length)
    else countOccsAux t fuel rest

/-- `text.count(target)`: each match consumes at least one character, so
`l.length` units of fuel always suffice. -/
def countOccs (t l : List Char) : ℕ := countOccsAux t l.length l

/-- `transform_count_word`: empty word raises
`ValueError("Word to count cannot be empty.")`; otherwise sums
`text.lower().count(word.lower())` over the strings. -/
def transform_count_word (values : List String) (word : String) :
    Except PipeErr ℕ :=
  if word = "" then .error (.invalidArgument "Word to count cannot be empty.")
  else
    .ok (values.foldl
      (fun acc text => acc + countOccs (pyLower word).data (pyLower text).data)
      0)

/-- `verify_count`: reject a negative count. -/
def verify_count (count : ℤ) : Except PipeErr Unit :=
  if count < 0 then .error (.invalidValue "Count cannot be negative.")
  else .ok ()

/-! ### Text pipeline (`case_text_pipeline.py`) -/

/-- `extract_lines`: checks the file exists, then `readlines()` — the
content is already the list of lines. -/
def extract_lines (file : Option (List String)) :
    Except PipeErr (List String) :=
  match file with
  | none => .error (.resourceNotFound "Missing input file")
  | some ls => .ok ls

/-- The key loop of `verify_summary` over the remaining expected keys:
for each key in order, first the missing check, then the negative
check. -/
def verifySummaryGo (summary : List (String × ℤ)) :
    List String → Except PipeErr Unit
  | [] => .ok ()
  | k :: ks =>
    match summary.lookup k with
    | none => .error (.incompleteSummary [k])
    | some v =>
      if v < 0 then .error (.invalidValue ("Invalid " ++ k ++ " count"))
      else verifySummaryGo summary ks

/-- Expected keys of the text summary, in the order the source checks. -/
def textRequired : List String := ["lines", "words", "chars"]

/-- `verify_summary`: interleaved missing/negative checks for `lines`,
`words`, `chars`, in that order. -/
def verify_summary (summary : List (String × ℤ)) : Except PipeErr Unit :=
  verifySummaryGo summary textRequired

/-- Discriminator: did a step fail with `IncompleteSummary`? -/
def isIncompleteErr {β : Type} : Except PipeErr β → Bool
  | .error (.incompleteSummary _) => true
  | _ => false

/-! ### Lemmas: list minimum / maximum / mean -/

theorem foldl_min_le (t : List ℚ) (a : ℚ) : ∀ x ∈ a :: t, t.foldl min a ≤ x := by
  induction t generalizing a with
  | nil =>
    intro x hx
    rcases List.mem_cons.mp hx with rfl | h
    · exact le_refl x
    · exact absurd h (List.not_mem_nil x)
  | cons b bs ih =>
    intro x hx
    have h0 : bs.foldl min (min a b) ≤ min a b :=
      ih (min a b) (min a b) (List.mem_cons_self _ _)
    show bs.foldl min (min a b) ≤ x
    rcases List.mem_cons.mp hx with rfl | hx2
    · exact le_trans h0 (min_le_left x b)
    rcases List.mem_cons.mp hx2 with rfl | hx3
    · exact le_trans h0 (min_le_right a x)
    · exact ih (min a b) x (List.mem_cons_of_mem _ hx3)

theorem le_foldl_max (t : List ℚ) (a : ℚ) : ∀ x ∈ a :: t, x ≤ t.foldl max a := by
  induction t generalizing a with
  | nil =>
    intro x hx
    rcases List.mem_cons.mp hx with rfl | h
    · exact le_refl x
    · exact absurd h (List.not_mem_nil x)
  | cons b bs ih =>
    intro x hx
    have h0 : max a b ≤ bs.foldl max (max a b) :=
      ih (max a b) (max a b) (List.mem_cons_self _ _)
    show x ≤ bs.foldl max (max a b)
    rcases List.mem_cons.mp hx with rfl | hx2
    · exact le_trans (le_max_left x b) h0
    rcases List.mem_cons.mp hx2 with rfl | hx3
    · exact le_trans (le_max_right a x) h0
    · exact ih (max a b) x (List.mem_cons_of_mem _ hx3)

theorem mul_length_le_sum {l : List ℚ} {a : ℚ} (h : ∀ x ∈ l, a ≤ x) :
    a * l.length ≤ l.sum := by
  induction l with
  | nil => simp
  | cons x xs ih =>
    have hx : a ≤ x := h x (by simp)
    have hxs : a * xs.length ≤ xs.sum := ih (fun y hy => h y (by simp [hy]))
    have : (((x :: xs).length : ℚ)) = (xs.length : ℚ) + 1 := by
      push_cast [List.length_cons]; ring
    rw [this, List.sum_cons]
    nlinarith

theorem sum_le_mul_length {l : List ℚ} {a : ℚ} (h : ∀ x ∈ l, x ≤ a) :
    l.sum ≤ a * l.length := by
  induction l with
  | nil => simp
  | cons x xs ih =>
    have hx : x ≤ a := h x (by simp)
    have hxs : xs.sum ≤ a * xs.length := ih (fun y hy => h y (by simp [hy]))
    have : (((x :: xs).length : ℚ)) = (xs.length : ℚ) + 1 := by
      push_cast [List.length_cons]; ring
    rw [this, List.sum_cons]
    nlinarith

theorem foldl_min_le_mean (h : ℚ) (t : List ℚ) :
    t.foldl min h ≤ (h :: t).sum / (h :: t).length := by
  have hlen : (0 : ℚ) < ((h :: t).length : ℚ) := by
    simp [List.length_cons]
    positivity
  rw [le_div_iff₀ hlen]
  exact mul_length_le_sum (fun x hx => foldl_min_le t h x hx)

theorem mean_le_foldl_max (h : ℚ) (t : List ℚ) :
    (h :: t).sum / (h :: t).length ≤ t.foldl max h := by
  have hlen : (0 : ℚ) < ((h :: t).length : ℚ) := by
    simp [List.length_cons]
    positivity
  rw [div_le_iff₀ hlen]
  exact sum_le_mul_length (fun x hx => le_foldl_max t h x hx)

/-! ### Lemmas: the counts dict -/

theorem lookup_cons_self {β : Type} (k : String) (v : β)
    (rest : List (String × β)) : List.lookup k ((k, v) :: rest) = some v := by
  simp [List.lookup]

theorem lookup_cons_ne {β : Type} {g k : String} (hgk : g ≠ k) (v : β)
    (rest : List (String × β)) :
    List.lookup g ((k, v) :: rest) = List.lookup g rest := by
  simp [List.lookup, beq_eq_false_iff_ne.mpr hgk]

theorem valueOf_dictInsert (c : List (String × ℤ)) (k g : String) :
    valueOf (dictInsert c k) g = valueOf c g + if g = k then 1 else 0 := by
  induction c with
  | nil =>
    by_cases hgk : g = k
    · subst hgk
      simp [dictInsert, valueOf, lookup_cons_self]
    · simp [dictInsert, valueOf, List.lookup, beq_eq_false_iff_ne.mpr hgk, hgk]
  | cons p rest ih =>
    obtain ⟨k', v⟩ := p
    by_cases hk : k' = k
    · subst hk
      by_cases hgk : g = k'
      · subst hgk
        simp [dictInsert, valueOf, lookup_cons_self]
      · simp [dictInsert, valueOf, lookup_cons_ne hgk, hgk]
    · rw [show dictInsert ((k', v) :: rest) k = (k', v) :: dictInsert rest k by
        simp [dictInsert, hk]]
      by_cases hgk : g = k'
      · subst hgk
        simp [valueOf, lookup_cons_self, hk]
      · rw [show valueOf ((k', v) :: dictInsert rest k) g =
              valueOf (dictInsert rest k) g by
            simp [valueOf, lookup_cons_ne hgk],
          show valueOf ((k', v) :: rest) g = valueOf rest g by
            simp [valueOf, lookup_cons_ne hgk]]
        exact ih

theorem sumVals_dictInsert (c : List (String × ℤ)) (k : String) :
    sumVals (dictInsert c k) = sumVals c + 1 := by
  induction c with
  | nil => simp [dictInsert, sumVals]
  | cons p rest ih =>
    obtain ⟨k', v⟩ := p
    by_cases hk : k' = k
    · simp [dictInsert, sumVals, hk]; ring
    · simp [dictInsert, sumVals, hk] at ih ⊢; omega

theorem sumVals_foldl (key : String) (people : List Person) :
    ∀ c : List (String × ℤ),
      sumVals (people.foldl
        (fun counts person => dictInsert counts (classifyCraft key person)) c) =
      sumVals c + people.length := by
  induction people with
  | nil => intro c; simp
  | cons p ps ih =>
    intro c
    rw [List.foldl_cons, ih, sumVals_dictInsert]
    simp [List.length_cons]
    omega

theorem valueOf_foldl (key : String) (people : List Person) :
    ∀ (c : List (String × ℤ)) (g : String),
      valueOf (people.foldl
        (fun counts person => dictInsert counts (classifyCraft key person)) c) g =
      valueOf c g +
        ((people.filter (fun p => classifyCraft key p = g)).length : ℤ) := by
  induction people with
  | nil => intro c g; simp
  | cons p ps ih =>
    intro c g
    rw [List.foldl_cons, ih, valueOf_dictInsert]
    by_cases hg : classifyCraft key p = g
    · rw [List.filter_cons_of_pos (by simp [hg]), List.length_cons,
        if_pos hg.symm]
      push_cast
      ring
    · rw [List.filter_cons_of_neg (by simp [hg]),
        if_neg (fun hc => hg hc.symm)]
      ring

theorem classifyCraft_not_blank (key : String) (p : Person) :
    pyStrip (classifyCraft key p) ≠ "" := by
  have hu : pyStrip "Unknown" ≠ "" := by decide
  unfold classifyCraft
  cases hl : (p.lookup key).getD (.str "Unknown") with
  | str s =>
    show pyStrip (if pyStrip s = "" then "Unknown" else s) ≠ ""
    by_cases hs : pyStrip s = ""
    · rw [if_pos hs]; exact hu
    · rw [if_neg hs]; exact hs
  | null => exact hu
  | bool b => exact hu
  | num q => exact hu
  | arr xs => exact hu
  | obj fs => exact hu

theorem dictInsert_preserves (c : List (String × ℤ)) (k : String)
    (hk : pyStrip k ≠ "")
    (hc : ∀ pr ∈ c, pyStrip pr.1 ≠ "" ∧ 1 ≤ pr.2) :
    ∀ pr ∈ dictInsert c k, pyStrip pr.1 ≠ "" ∧ 1 ≤ pr.2 := by
  induction c with
  | nil =>
    intro pr hpr
    simp [dictInsert] at hpr
    subst hpr
    exact ⟨hk, le_refl 1⟩
  | cons p rest ih =>
    obtain ⟨k', v⟩ := p
    intro pr hpr
    by_cases hkk : k' = k
    · simp [dictInsert, hkk] at hpr
      rcases hpr with hpr | hpr
      · subst hpr
        have := hc (k, v) (by simp [hkk])
        exact ⟨by simpa [hkk] using hk, by omega⟩
      · exact hc pr (by simp [hpr])
    · simp [dictInsert, hkk] at hpr
      rcases hpr with hpr | hpr
      · subst hpr
        exact hc (k', v) (by simp)
      · exact ih (fun q hq => hc q (by simp [hq])) pr hpr

theorem transform_counts_entries (people : List Person) (key : String) :
    ∀ pr ∈ transform_count_by_craft people key,
      pyStrip pr.1 ≠ "" ∧ 1 ≤ pr.2 := by
  unfold transform_count_by_craft
  suffices h : ∀ (c : List (String × ℤ)),
      (∀ pr ∈ c, pyStrip pr.1 ≠ "" ∧ 1 ≤ pr.2) →
      ∀ pr ∈ people.foldl
        (fun counts person => dictInsert counts (classifyCraft key person)) c,
        pyStrip pr.1 ≠ "" ∧ 1 ≤ pr.2 by
    exact h [] (by simp)
  induction people with
  | nil => intro c hc; exact hc
  | cons p ps ih =>
    intro c hc
    rw [List.foldl_cons]
    exact ih _ (dictInsert_preserves c _ (classifyCraft_not_blank key p) hc)

theorem verify_counts_ok (counts : List (String × ℤ))
    (h : ∀ pr ∈ counts, pyStrip pr.1 ≠ "" ∧ 1 ≤ pr.2) :
    verify_counts counts = .ok () := by
  induction counts with
  | nil => rfl
  | cons p rest ih =>
    obtain ⟨craft, count⟩ := p
    have hp := h (craft, count) (by simp)
    have hrest : verify_counts rest = .ok () :=
      ih (fun q hq => h q (by simp [hq]))
    simp only [verify_counts]
    rw [if_neg hp.1, if_neg (by omega), hrest]

/-! ### Lemmas: the lexicographic string order used by `sorted` -/

theorem lexLe_total : ∀ xs ys : List Char,
    lexLe xs ys = true ∨ lexLe ys xs = true := by
  intro xs
  induction xs with
  | nil => intro ys; left; rfl
  | cons a as ih =>
    intro ys
    cases ys with
    | nil => right; rfl
    | cons b bs =>
      rcases Nat.lt_trichotomy a.toNat b.toNat with hab | hab | hab
      · left; simp [lexLe, hab]
      · have h1 : ¬ a.toNat < b.toNat := by omega
        have h2 : ¬ b.toNat < a.toNat := by omega
        rcases ih bs with h | h
        · left; simp [lexLe, h1, h2, h]
        · right; simp [lexLe, h1, h2, h]
      · right; simp [lexLe, hab]

theorem lexLe_trans : ∀ xs ys zs : List Char, lexLe xs ys = true →
    lexLe ys zs = true → lexLe xs zs = true := by
  intro xs
  induction xs with
  | nil => intro ys zs h1 h2; rfl
  | cons a as ih =>
    intro ys zs h1 h2
    cases ys with
    | nil => simp [lexLe] at h1
    | cons b bs =>
      cases zs with
      | nil => simp [lexLe] at h2
      | cons c cs =>
        rcases Nat.lt_trichotomy a.toNat b.toNat with hab | hab | hab
        · rcases Nat.lt_trichotomy b.toNat c.toNat with hbc | hbc | hbc
          · simp [lexLe, show a.toNat < c.toNat by omega]
          · simp [lexLe, show a.toNat < c.toNat by omega]
          · simp [lexLe, show ¬ b.toNat < c.toNat by omega, hbc] at h2
        · have h1' : lexLe as bs = true := by
            simpa [lexLe, show ¬ a.toNat < b.toNat by omega,
              show ¬ b.toNat < a.toNat by omega] using h1
          rcases Nat.lt_trichotomy b.toNat c.toNat with hbc | hbc | hbc
          · simp [lexLe, show a.toNat < c.toNat by omega]
          · have h2' : lexLe bs cs = true := by
              simpa [lexLe, show ¬ b.toNat < c.toNat by omega,
                show ¬ c.toNat < b.toNat by omega] using h2
            simp [lexLe, show ¬ a.toNat < c.toNat by omega,
              show ¬ c.toNat < a.toNat by omega]
            exact ih bs cs h1' h2'
          · simp [lexLe, show ¬ b.toNat < c.toNat by omega, hbc] at h2
        · simp [lexLe, show ¬ a.toNat < b.toNat by omega, hab] at h1

instance instTotalStrLeP : IsTotal String strLeP :=
  ⟨fun a b => lexLe_total a.data b.data⟩

instance instTransStrLeP : IsTrans String strLeP :=
  ⟨fun _ _ _ h1 h2 => lexLe_trans _ _ _ h1 h2⟩

/-! ### Lemmas: verifiers on summaries with missing fields -/

theorem verifySummaryGo_rejects (s : List (String × ℤ)) :
    ∀ ks, (∃ k ∈ ks, s.lookup k = none) → verifySummaryGo s ks ≠ .ok () := by
  intro ks
  induction ks with
  | nil =>
    rintro ⟨k, hk, -⟩
    exact absurd hk (List.not_mem_nil k)
  | cons k0 ks' ih =>
    rintro ⟨k, hk, hnone⟩
    cases hl : s.lookup k0 with
    | none => simp [verifySummaryGo, hl]
    | some v =>
      simp only [verifySummaryGo, hl]
      by_cases hv : v < 0
      · rw [if_pos hv]; simp
      · rw [if_neg hv]
        apply ih
        rcases List.mem_cons.mp hk with rfl | hk2
        · rw [hl] at hnone; cases hnone
        · exact ⟨k, hk2, hnone⟩

theorem verifySummaryGo_incomplete (s : List (String × ℤ))
    (hpos : ∀ k v, s.lookup k = some v → 0 ≤ v) :
    ∀ ks, (∃ k ∈ ks, s.lookup k = none) →
      isIncompleteErr (verifySummaryGo s ks) = true := by
  intro ks
  induction ks with
  | nil =>
    rintro ⟨k, hk, -⟩
    exact absurd hk (List.not_mem_nil k)
  | cons k0 ks' ih =>
    rintro ⟨k, hk, hnone⟩
    cases hl : s.lookup k0 with
    | none => simp [verifySummaryGo, hl, isIncompleteErr]
    | some v =>
      have hv : 0 ≤ v := hpos k0 v hl
      simp only [verifySummaryGo, hl]
      rw [if_neg (by omega)]
      apply ih
      rcases List.mem_cons.mp hk with rfl | hk2
      · rw [hl] at hnone; cases hnone
      · exact ⟨k, hk2, hnone⟩

theorem verify_stats_missing {α : Type} [LinearOrderedField α]
    (stats : List (String × α)) (k : String) (hk : k ∈ statsRequired)
    (hnone : stats.lookup k = none) :
    isIncompleteErr (verify_stats stats) = true := by
  have hmem : k ∈ statsRequired.filter (fun j => (stats.lookup j).isNone) :=
    List.mem_filter.mpr ⟨hk, by simp [hnone]⟩
  unfold verify_stats
  cases hf : statsRequired.filter (fun j => (stats.lookup j).isNone) with
  | nil =>
    rw [hf] at hmem
    exact absurd hmem (List.not_mem_nil k)
  | cons m ms => rfl

/-! ### Lemmas: rounding -/

theorem rhe_eq_of_bounds {x : ℝ} {n : ℤ} (h1 : (n : ℝ) ≤ x)
    (h2 : x < n + 1 / 2) : rhe x = n := by
  have hfl : ⌊x⌋ = n := Int.floor_eq_iff.mpr ⟨h1, by linarith⟩
  unfold rhe
  rw [hfl, if_pos (by linarith)]

/-! ### Lemmas: the statistics dict -/

theorem transform_cons (h : ℚ) (t : List ℚ) :
    transform_scores_to_stats (h :: t) =
      .ok [("count", ((h :: t).length : ℝ)),
           ("min", ((t.foldl min h : ℚ) : ℝ)),
           ("max", ((t.foldl max h : ℚ) : ℝ)),
           ("mean", (((h :: t).sum / (h :: t).length : ℚ) : ℝ)),
           ("stdev",
             if t = [] then 0
             else Real.sqrt
               ((((h :: t).map
                     (fun x => (x - (h :: t).sum / (h :: t).length) ^ 2)).sum /
                   ((h :: t).length - 1) : ℚ) : ℝ))] := rfl

theorem statsField_count (h : ℚ) (t : List ℚ) :
    statsField (h :: t) "count" = ((h :: t).length : ℝ) := rfl

theorem statsField_min (h : ℚ) (t : List ℚ) :
    statsField (h :: t) "min" = ((t.foldl min h : ℚ) : ℝ) := rfl

theorem statsField_max (h : ℚ) (t : List ℚ) :
    statsField (h :: t) "max" = ((t.foldl max h : ℚ) : ℝ) := rfl

theorem statsField_mean (h : ℚ) (t : List ℚ) :
    statsField (h :: t) "mean" =
      (((h :: t).sum / (h :: t).length : ℚ) : ℝ) := rfl

theorem statsField_stdev (h : ℚ) (t : List ℚ) :
    statsField (h :: t) "stdev" =
      if t = [] then 0
      else Real.sqrt
        ((((h :: t).map
              (fun x => (x - (h :: t).sum / (h :: t).length) ^ 2)).sum /
            ((h :: t).length - 1) : ℚ) : ℝ) := rfl

/-! ### The spec's CSV end-to-end example -/

/-- The example rows: `"Ladder score"` cells `"7.5", "6.2", "", "bad",
"5.0"`. -/
def csvExample : CsvFile :=
  ⟨["Ladder score"],
   [[("Ladder score", "7.5")], [("Ladder score", "6.2")],
    [("Ladder score", "")], [("Ladder score", "bad")],
    [("Ladder score", "5.0")]]⟩

theorem extract_example :
    extract_csv_scores (some csvExample) "Ladder score" =
      .ok [7.5, 6.2, 5.0] := by
  have h0 : extract_csv_scores (some csvExample) "Ladder score" =
      .ok [((7 : ℕ) : ℚ) + ((5 : ℕ) : ℚ) / (10 : ℚ) ^ (1 : ℕ),
           ((6 : ℕ) : ℚ) + ((2 : ℕ) : ℚ) / (10 : ℚ) ^ (1 : ℕ),
           ((5 : ℕ) : ℚ) + ((0 : ℕ) : ℚ) / (10 : ℚ) ^ (1 : ℕ)] := rfl
  rw [h0]
  simp only [Except.ok.injEq, List.cons.injEq, and_true]
  norm_num

theorem example_mean_eq :
    (([7.5, 6.2, 5.0] : List ℚ).sum / ([7.5, 6.2, 5.0] : List ℚ).length
      : ℚ) = 187 / 30 := by
  norm_num [List.sum_cons]

theorem example_svar_eq :
    ((([7.5, 6.2, 5.0] : List ℚ).map
        (fun x => (x - ([7.5, 6.2, 5.0] : List ℚ).sum /
          ([7.5, 6.2, 5.0] : List ℚ).length) ^ 2)).sum /
      (([7.5, 6.2, 5.0] : List ℚ).length - 1) : ℚ) = 469 / 300 := by
  norm_num [List.map_cons, List.sum_cons]

theorem example_min_eq : ([6.2, 5.0] : List ℚ).foldl min 7.5 = 5 := by
  norm_num [List.foldl, min_def]

theorem example_max_eq : ([6.2, 5.0] : List ℚ).foldl max 7.5 = 7.5 := by
  norm_num [List.foldl, max_def]

theorem example_mean_round :
    round2 (statsField [7.5, 6.2, 5.0] "mean") = 6.23 := by
  rw [statsField_mean, example_mean_eq]
  unfold round2
  have hc : (((187 : ℚ) / 30 : ℚ) : ℝ) = 187 / 30 := by push_cast; ring
  rw [hc]
  rw [rhe_eq_of_bounds (n := 623) (by norm_num) (by norm_num)]
  norm_num

theorem example_stdev_round :
    round2 (statsField [7.5, 6.2, 5.0] "stdev") = 1.25 := by
  rw [statsField_stdev, if_neg (by simp), example_svar_eq]
  unfold round2
  have hc : (((469 : ℚ) / 300 : ℚ) : ℝ) = 469 / 300 := by push_cast; ring
  rw [hc]
  have h0 : (0 : ℝ) ≤ 469 / 300 := by norm_num
  have hs : Real.sqrt (469 / 300) ^ 2 = 469 / 300 := Real.sq_sqrt h0
  have hnn : 0 ≤ Real.sqrt ((469 : ℝ) / 300) := Real.sqrt_nonneg _
  have h1 : (((125 : ℤ)) : ℝ) ≤ 100 * Real.sqrt (469 / 300) := by
    push_cast
    nlinarith [hs, hnn]
  have h2 : 100 * Real.sqrt ((469 : ℝ) / 300) < ((125 : ℤ) : ℝ) + 1 / 2 := by
    push_cast
    nlinarith [hs, hnn]
  rw [rhe_eq_of_bounds h1 h2]
  norm_num

theorem count_line_eq :
    "Count: " ++
      toString (pyInt (((statsOf [7.5, 6.2, 5.0]).lookup "count").getD 0)) =
    "Count: 3" := by
  have h0 : ((statsOf [7.5, 6.2, 5.0]).lookup "count").getD 0 =
      ((3 : ℕ) : ℝ) := rfl
  rw [h0]
  have h1 : pyInt ((3 : ℕ) : ℝ) = 3 := by
    unfold pyInt
    rw [if_pos (by positivity)]
    push_cast
    norm_num
  rw [h1]
  rfl

/-- C1 (amended): extracting column "Ladder score" from the example rows
yields `[7.5, 6.2, 5.0]` (blank and non-numeric cells dropped, order
preserved); the summary has count 3, min 5.0, max 7.5, mean 6.23 and
stdev 1.25 when rounded to 2 decimal places as in the report (the
sample standard deviation is √(469/300) ≈ 1.2503, so it prints as 1.25,
not 1.31); the report contains the line "Count: 3". -/
theorem csv_pipeline_end_to_end :
    extract_csv_scores (some csvExample) "Ladder score" =
        .ok [7.5, 6.2, 5.0] ∧
    statsField [7.5, 6.2, 5.0] "count" = 3 ∧
    statsField [7.5, 6.2, 5.0] "min" = 5 ∧
    statsField [7.5, 6.2, 5.0] "max" = 7.5 ∧
    round2 (statsField [7.5, 6.2, 5.0] "mean") = 6.23 ∧
    round2 (statsField [7.5, 6.2, 5.0] "stdev") = 1.25 ∧
    "Count: 3" ∈ load_stats_report (statsOf [7.5, 6.2, 5.0]) := by
  refine ⟨extract_example, ?_, ?_, ?_, example_mean_round,
    example_stdev_round, ?_⟩
  · rw [statsField_count]
    norm_num
  · rw [statsField_min, example_min_eq]
    norm_num
  · rw [statsField_max, example_max_eq]
    norm_num
  · simp only [load_stats_report]
    refine List.mem_cons_of_mem _ ?_
    rw [count_line_eq]
    exact List.mem_cons_self _ _

/-- C1 counterexample: on the example scores the report's standard
deviation rounds to 1.25 (√(469/300) ≈ 1.2503), not to 1.31 as the
claim states. -/
theorem csv_stdev_not_131 :
    round2 (statsField [7.5, 6.2, 5.0] "stdev") ≠ 1.31 := by
  rw [example_stdev_round]
  norm_num

/-- C2 (amended): a Summary missing a required field is always rejected.
The statistics verifier always raises IncompleteSummary in that case
(it computes the full missing set first).  The text verifier always
rejects such a summary, and raises IncompleteSummary whenever every
present field value is non-negative; when a field checked before the
first missing key is negative it raises InvalidValue instead.  The JSON
and XLSX verifiers have no required fields, so the property is vacuous
for them. -/
theorem verifier_missing_field_behaviour :
    (∀ (α : Type) [LinearOrderedField α] (stats : List (String × α))
        (k : String), k ∈ statsRequired → stats.lookup k = none →
        isIncompleteErr (verify_stats stats) = true) ∧
    (∀ s : List (String × ℤ), (∃ k ∈ textRequired, s.lookup k = none) →
        verify_summary s ≠ .ok () ∧
        ((∀ k v, s.lookup k = some v → 0 ≤ v) →
          isIncompleteErr (verify_summary s) = true)) := by
  constructor
  · intro α _ stats k hk hnone
    exact verify_stats_missing stats k hk hnone
  · intro s hex
    exact ⟨verifySummaryGo_rejects s textRequired hex,
      fun hpos => verifySummaryGo_incomplete s hpos textRequired hex⟩

/-- C2 witness: the statistics verifier on a summary missing "mean". -/
theorem verifier_missing_field_behaviour_witness :
    isIncompleteErr
      (verify_stats [("count", (1 : ℚ)), ("min", 0), ("max", 2),
        ("stdev", 0)]) = true :=
  verifier_missing_field_behaviour.1 ℚ
    [("count", (1 : ℚ)), ("min", 0), ("max", 2), ("stdev", 0)] "mean"
    (by decide) rfl

/-- C2 counterexample: the text summary `{lines: -1}` is missing the
required field "words", yet the verifier raises InvalidValue (for the
negative "lines" checked first), not IncompleteSummary. -/
theorem text_verifier_invalid_before_missing :
    List.lookup "words" [("lines", (-1 : ℤ))] = none ∧
    ("words" : String) ∈ textRequired ∧
    verify_summary [("lines", (-1 : ℤ))] =
      .error (.invalidValue "Invalid lines count") ∧
    isIncompleteErr (verify_summary [("lines", (-1 : ℤ))]) = false :=
  ⟨rfl, by decide, rfl, rfl⟩

/-- C3: for every non-empty score list, the statistics transformer's
summary satisfies min ≤ mean ≤ max and stdev ≥ 0, and a single-element
list gets stdev = 0. -/
theorem stats_min_mean_max_stdev (scores : List ℚ) (h : scores ≠ []) :
    statsField scores "min" ≤ statsField scores "mean" ∧
    statsField scores "mean" ≤ statsField scores "max" ∧
    0 ≤ statsField scores "stdev" ∧
    (scores.length = 1 → statsField scores "stdev" = 0) := by
  obtain ⟨a, t, rfl⟩ := List.exists_cons_of_ne_nil h
  refine ⟨?_, ?_, ?_, ?_⟩
  · rw [statsField_min, statsField_mean]
    exact_mod_cast foldl_min_le_mean a t
  · rw [statsField_mean, statsField_max]
    exact_mod_cast mean_le_foldl_max a t
  · rw [statsField_stdev]
    by_cases ht : t = []
    · rw [if_pos ht]
    · rw [if_neg ht]
      exact Real.sqrt_nonneg _
  · intro hlen
    have ht : t = [] := by
      have : t.length = 0 := by simpa [List.length_cons] using hlen
      exact List.length_eq_zero.mp this
    rw [statsField_stdev, if_pos ht]

/-- C3 witness: the bounds at the single score 2. -/
theorem stats_min_mean_max_stdev_witness :
    statsField [2] "min" ≤ statsField [2] "mean" ∧
    statsField [2] "mean" ≤ statsField [2] "max" ∧
    0 ≤ statsField [2] "stdev" ∧
    (([2] : List ℚ).length = 1 → statsField [2] "stdev" = 0) :=
  stats_min_mean_max_stdev [2] (by simp)

/-- C4: the grouped counts total exactly the number of input records;
a record whose group-key field is missing, blank, or not a string is
classified (hence counted) under the literal group "Unknown"; in fact
the count of every group g is exactly the number of records classified
as g. -/
theorem grouped_counts_total_and_unknown (people : List Person)
    (key : String) :
    sumVals (transform_count_by_craft people key) = people.length ∧
    (∀ p : Person, badCraftKey key p = true →
      classifyCraft key p = "Unknown") ∧
    (∀ g : String, valueOf (transform_count_by_craft people key) g =
      ((people.filter (fun p => classifyCraft key p = g)).length : ℤ)) := by
  refine ⟨?_, ?_, ?_⟩
  · have := sumVals_foldl key people []
    simpa [transform_count_by_craft, sumVals] using this
  · intro p hbad
    unfold badCraftKey at hbad
    unfold classifyCraft
    cases hl : p.lookup key with
    | none => decide
    | some v =>
      rw [hl] at hbad
      cases v with
      | str s =>
        have hs : pyStrip s = "" := by simpa using hbad
        show (if pyStrip s = "" then "Unknown" else s) = "Unknown"
        rw [if_pos hs]
      | null => rfl
      | bool b => rfl
      | num q => rfl
      | arr xs => rfl
      | obj fs => rfl
  · intro g
    have := valueOf_foldl key people [] g
    simpa [transform_count_by_craft, valueOf, List.lookup] using this

/-- C4 witness: three records, one with a blank craft, total 3; a
record with a numeric craft value is classified "Unknown". -/
theorem grouped_counts_total_and_unknown_witness :
    sumVals (transform_count_by_craft
      [[("craft", JVal.str "ISS")], [("craft", JVal.str "ISS")],
       [("craft", JVal.str "")]] "craft") = 3 ∧
    classifyCraft "craft" [("craft", JVal.num 7)] = "Unknown" :=
  ⟨(grouped_counts_total_and_unknown
      [[("craft", JVal.str "ISS")], [("craft", JVal.str "ISS")],
       [("craft", JVal.str "")]] "craft").1,
   (grouped_counts_total_and_unknown [[("craft", JVal.num 7)]]
      "craft").2.1 [("craft", JVal.num 7)] (by decide)⟩

/-- Folding `acc + f x` over a list totals the mapped sum. -/
theorem foldl_add_count (f : String → ℕ) :
    ∀ (l : List String) (acc : ℕ),
      l.foldl (fun a x => a + f x) acc = acc + (l.map f).sum := by
  intro l
  induction l with
  | nil => intro acc; simp
  | cons x xs ih =>
    intro acc
    rw [List.foldl_cons, ih, List.map_cons, List.sum_cons]
    omega

/-- C5: the substring-count transformer rejects an empty target word
with InvalidArgument, and for a non-empty word returns the sum over the
strings, each scanned independently, of the non-overlapping
case-insensitive occurrence counts; consequently the count over a
concatenation of two string lists is the sum of the two counts. -/
theorem count_word_spec (values : List String) (word : String) :
    transform_count_word values word =
      (if word = "" then
        .error (.invalidArgument "Word to count cannot be empty.")
       else .ok ((values.map
         (fun text => countOccs (pyLower word).data (pyLower text).data)).sum)) ∧
    (∀ vs₂ : List String, word ≠ "" → ∀ n₁ n₂ : ℕ,
      transform_count_word values word = .ok n₁ →
      transform_count_word vs₂ word = .ok n₂ →
      transform_count_word (values ++ vs₂) word = .ok (n₁ + n₂)) := by
  have hsum : ∀ vs : List String, word ≠ "" →
      transform_count_word vs word =
        .ok ((vs.map
          (fun text => countOccs (pyLower word).data (pyLower text).data)).sum) := by
    intro vs hw
    unfold transform_count_word
    rw [if_neg hw, foldl_add_count]
    simp
  constructor
  · by_cases hw : word = ""
    · simp [transform_count_word, hw]
    · rw [if_neg hw]
      exact hsum values hw
  · intro vs₂ hw n₁ n₂ h1 h2
    rw [hsum values hw] at h1
    rw [hsum vs₂ hw] at h2
    injection h1 with e1
    injection h2 with e2
    rw [hsum (values ++ vs₂) hw, List.map_append, List.sum_append, e1, e2]

/-- C5 witness: "GitHub" counted case-insensitively over two strings. -/
theorem count_word_spec_witness :
    transform_count_word ["xGitHuby", "github GITHUB"] "GitHub" =
      .ok 3 := by
  have h := (count_word_spec ["xGitHuby", "github GITHUB"] "GitHub").1
  rw [if_neg (by decide)] at h
  rw [h]
  rfl

/-- C6: every extractor called on a nonexistent source path (modelled
as `none`: there is no content at all, so no parsing can be attempted)
fails with ResourceNotFound, whatever the selector. -/
theorem extractors_missing_file (colname listkey colletter : String) :
    extract_csv_scores none colname =
        .error (.resourceNotFound "Missing input file") ∧
    extract_people_list none listkey =
        .error (.resourceNotFound "Missing input file") ∧
    extract_xlsx_column_strings none colletter =
        .error (.resourceNotFound "Missing input file") ∧
    extract_lines none =
        .error (.resourceNotFound "Missing input file") :=
  ⟨rfl, rfl, rfl, rfl⟩

/-- C6 witness: the four extractors at concrete selectors. -/
theorem extractors_missing_file_witness :
    extract_csv_scores none "Ladder score" =
        .error (.resourceNotFound "Missing input file") ∧
    extract_lines none =
        .error (.resourceNotFound "Missing input file") :=
  ⟨(extractors_missing_file "Ladder score" "people" "A").1,
   (extractors_missing_file "Ladder score" "people" "A").2.2.2⟩

/-- C7: the grouped-count report is the title line followed by one
"<group>: <count>" line per group, the groups sorted lexicographically
ascending; in particular for counts {ISS: 2, Unknown: 1} the line
"ISS: 2" appears directly before "Unknown: 1". -/
theorem counts_report_sorted (counts : List (String × ℤ)) :
    load_counts_report counts =
      "Astronauts by spacecraft:" ::
        ((counts.map Prod.fst).insertionSort strLeP).map
          (fun craft => craft ++ ": " ++ toString (valueOf counts craft)) ∧
    List.Sorted strLeP ((counts.map Prod.fst).insertionSort strLeP) ∧
    load_counts_report [("ISS", 2), ("Unknown", 1)] =
      ["Astronauts by spacecraft:", "ISS: 2", "Unknown: 1"] :=
  ⟨rfl, List.sorted_insertionSort strLeP _, rfl⟩

/-- C8: the statistics transformer raises EmptyInput exactly on the
empty list; on any non-empty list it succeeds with a complete summary
carrying all five keys. -/
theorem transform_empty_iff (scores : List ℚ) :
    (transform_scores_to_stats scores =
        .error (.emptyInput "No numeric values found for analysis.") ↔
      scores = []) ∧
    (scores ≠ [] →
      (∃ d, transform_scores_to_stats scores = .ok d) ∧
      (statsOf scores).map Prod.fst =
        ["count", "min", "max", "mean", "stdev"]) := by
  constructor
  · constructor
    · intro he
      cases scores with
      | nil => rfl
      | cons a t =>
        rw [transform_cons] at he
        cases he
    · rintro rfl
      rfl
  · intro h
    obtain ⟨a, t, rfl⟩ := List.exists_cons_of_ne_nil h
    exact ⟨⟨_, transform_cons a t⟩, rfl⟩

/-- C8 witness: the transformer succeeds on the singleton score 3. -/
theorem transform_empty_iff_witness :
    (∃ d, transform_scores_to_stats [3] = .ok d) ∧
    (statsOf [3]).map Prod.fst = ["count", "min", "max", "mean", "stdev"] :=
  (transform_empty_iff [3]).2 (by simp)

/-- C9: on every non-empty score list the transformer's summary has all
five required keys, a strictly positive count and min ≤ max, so the
statistics verifier accepts it without raising. -/
theorem verify_accepts_transform (scores : List ℚ) (h : scores ≠ []) :
    (statsOf scores).map Prod.fst =
      ["count", "min", "max", "mean", "stdev"] ∧
    0 < statsField scores "count" ∧
    statsField scores "min" ≤ statsField scores "max" ∧
    verify_stats (statsOf scores) = .ok () := by
  obtain ⟨a, t, rfl⟩ := List.exists_cons_of_ne_nil h
  have hcount : (0 : ℝ) < statsField (a :: t) "count" := by
    rw [statsField_count]
    push_cast [List.length_cons]
    positivity
  have hminmax : statsField (a :: t) "min" ≤ statsField (a :: t) "max" := by
    rw [statsField_min, statsField_max]
    have h1 : t.foldl min a ≤ a := foldl_min_le t a a (List.mem_cons_self a t)
    have h2 : a ≤ t.foldl max a := le_foldl_max t a a (List.mem_cons_self a t)
    exact_mod_cast le_trans h1 h2
  have heval : verify_stats (statsOf (a :: t)) =
      if statsField (a :: t) "count" ≤ 0 then
        .error (.invalidValue "Count must be positive.")
      else if statsField (a :: t) "max" < statsField (a :: t) "min" then
        .error (.invalidValue "Min cannot be greater than max.")
      else .ok () := rfl
  refine ⟨rfl, hcount, hminmax, ?_⟩
  rw [heval, if_neg (by linarith), if_neg (not_lt.mpr hminmax)]

/-- C9 witness: the verifier accepts the summary of the single score 2. -/
theorem verify_accepts_transform_witness :
    verify_stats (statsOf [2]) = .ok () :=
  (verify_accepts_transform [2] (by simp)).2.2.2

/-- C10: every entry of the grouped-count transformer's output has a
key that is non-blank after stripping and a count of at least 1, so
the grouped-count verifier always accepts transformer output. -/
theorem transform_counts_verified (people : List Person) (key : String) :
    (∀ pr ∈ transform_count_by_craft people key,
      pyStrip pr.1 ≠ "" ∧ 1 ≤ pr.2) ∧
    verify_counts (transform_count_by_craft people key) = .ok () :=
  ⟨transform_counts_entries people key,
   verify_counts_ok _ (transform_counts_entries people key)⟩

/-- C10 witness: two records, one without the craft key. -/
theorem transform_counts_verified_witness :
    (pyStrip "ISS" ≠ "" ∧ 1 ≤ (1 : ℤ)) ∧
    verify_counts (transform_count_by_craft
      [[("craft", JVal.str "ISS")], [("name", JVal.str "X")]]
      "craft") = .ok () :=
  ⟨(transform_counts_verified
      [[("craft", JVal.str "ISS")], [("name", JVal.str "X")]]
      "craft").1 ("ISS", 1) (by decide),
   (transform_counts_verified
      [[("craft", JVal.str "ISS")], [("name", JVal.str "X")]]
      "craft").2⟩

end Datafun
